import Mathlib

/-!
Verification development for `nyt_crossword_downloader`
(`src/nyt_crossword_downloader/__init__.py`).

Shallow embedding conventions:
* Python strings are modelled as `List Char`.
* `datetime` values handled by the orchestrator are modelled by their
  proleptic-Gregorian ordinal (`datetime.date.toordinal`), an `Int`;
  under this isomorphism `+ timedelta(days = n)` is `+ n` and date
  comparison is integer comparison.
* Dates extracted from puzzle payloads (used only for path construction
  and log lines) are modelled structurally as year/month/day (`YMD`).
* Fallible Python code is modelled with `Option`/`Except`; the network
  and the filesystem are oracles passed in as explicit arguments.
-/

/-- Model of Python `str.split(sep)` for a one-character separator,
over `List Char`.  `splitOnChar c []` is `[[]]`, matching
`"".split(c) == [""]`. -/
def splitOnChar (sep : Char) : List Char → List (List Char)
  | [] => [[]]
  | c :: cs =>
    match splitOnChar sep cs with
    | [] => [[]]
    | s :: ss => if c = sep then [] :: s :: ss else (c :: s) :: ss

/-- Numeric value of a decimal digit string, most significant digit
first (the value computed by Python `int` on a digit string). -/
def digitsVal (l : List Char) : Nat :=
  l.foldl (fun a c => 10 * a + (c.toNat - 48)) 0

/-- Model of Python `int(s)` restricted to plain (unsigned) decimal
digit strings.  Python's `int` additionally accepts surrounding
whitespace, an explicit sign and underscores; those forms never arise
from the claims considered here, and a component produced by splitting
on `-` can never contain a sign anyway. -/
def parseInt? (l : List Char) : Option Nat :=
  if l ≠ [] ∧ l.all (fun c => c.isDigit) then some (digitsVal l) else none

/-- The character of a decimal digit. -/
def digitChar (d : Nat) : Char := Char.ofNat (48 + d)

/-- Decimal representation, fuel-based so that it is structurally
recursive (the kernel can evaluate it).  `natToDecAux fuel n` is the
decimal representation of `n` provided `n ≤ fuel`; `natToDecAux n 0 = []`. -/
def natToDecAux : Nat → Nat → List Char
  | 0, _ => []
  | _ + 1, 0 => []
  | fuel + 1, n + 1 =>
    natToDecAux fuel ((n + 1) / 10) ++ [digitChar ((n + 1) % 10)]

/-- Decimal digits of `n` (empty for `0`; only used under zero padding,
mirroring Python `"{...:0wd}".format(n)` which pads with `'0'`). -/
def natToDec (n : Nat) : List Char := natToDecAux n n

/-- Model of Python `str(n)` for a nonnegative integer. -/
def natToStr (n : Nat) : List Char := if n = 0 then ['0'] else natToDec n

/-- Left zero-padding to width `w`, as done by `"{:0wd}".format`. -/
def padZeros (w : Nat) (l : List Char) : List Char :=
  List.replicate (w - l.length) '0' ++ l

/-- Model of `"{:02d}".format(n)` (`Puzzle.zero_pad_two`). -/
def fmt02 (n : Nat) : List Char := padZeros 2 (natToDec n)

/-- Model of `"{:04d}".format(n)`. -/
def fmt04 (n : Nat) : List Char := padZeros 4 (natToDec n)

/-- Model of `normalize_date_str` (source lines 20-22): split the string
on `-`, reinterpret the three components as integers, reformat as
zero-padded `YYYY-MM-DD`.  `none` models the `ValueError` Python raises
when the split does not produce exactly three components or a component
is not an integer. -/
def normalize_date_str (s : List Char) : Option (List Char) :=
  match splitOnChar '-' s with
  | [y, m, d] =>
    match parseInt? y, parseInt? m, parseInt? d with
    | some yn, some mn, some dn =>
      some (fmt04 yn ++ ('-' :: (fmt02 mn ++ ('-' :: fmt02 dn))))
    | _, _, _ => none
  | _ => none

/-- A calendar date as year/month/day, the projection of a Python
`datetime` used by the output writer. -/
structure YMD where
  year : Nat
  month : Nat
  day : Nat
deriving DecidableEq

/-- Is `y-m-d` a real proleptic-Gregorian calendar date (the validation
performed by `dateutil`/`datetime` construction)? -/
def isLeapYear (y : Nat) : Bool := y % 4 = 0 && (y % 100 ≠ 0 || y % 400 = 0)

/-- Length of month `m` in year `y`. -/
def daysInMonth (y m : Nat) : Nat :=
  if m = 2 then (if isLeapYear y then 29 else 28)
  else if m = 4 ∨ m = 6 ∨ m = 9 ∨ m = 11 then 30
  else 31

/-- Calendar validity check: `datetime` years run 1..9999. -/
def validYMD (y m d : Nat) : Bool :=
  decide (1 ≤ y ∧ y ≤ 9999 ∧ 1 ≤ m ∧ m ≤ 12 ∧ 1 ≤ d ∧ d ≤ daysInMonth y m)

/-- Model of `dateutil.parser.parse` restricted to the `YYYY-MM-DD`
digit strings this program feeds it (every call site first applies
`normalize_date_str`).  `none` models the `ValueError` raised on a
calendar-invalid date. -/
def parse_dt_str (s : List Char) : Option YMD :=
  match splitOnChar '-' s with
  | [a, b, c] =>
    match parseInt? a, parseInt? b, parseInt? c with
    | some y, some m, some d => if validYMD y m d then some ⟨y, m, d⟩ else none
    | _, _, _ => none
  | _ => none

/-- Model of `Puzzle.format_date` (`dt.strftime("%Y-%m-%d")`): zero-padded
year, month, day. -/
def format_date (dt : YMD) : List Char :=
  fmt04 dt.year ++ ('-' :: (fmt02 dt.month ++ ('-' :: fmt02 dt.day)))

deriving instance DecidableEq for Except

/-- The Python exceptions this program can raise, by kind.  Messages are
not modelled (no claim depends on them); `wrappedFsError` is the
`Exception("Cannot create destination directory: ...")` wrapper raised
by `make_destination_folder_if_not_exists`. -/
inductive PyErr where
  | keyError
  | indexError
  | missingPuzzleData
  | valueError
  | netError
  | fsError
  | wrappedFsError
deriving DecidableEq

/-- The projection of a fetch-endpoint response body that the program
inspects: the `publicationDate` field (a string, when present) and the
`body` field (a list of records, each with or without a `board` entry;
the board's contents are read once and discarded, so they are not
modelled). -/
structure RespData where
  publicationDate : Option (List Char)
  body : Option (List (Option Unit))
deriving DecidableEq

/-- Model of the access `data["body"][0]["board"]` on source line 140:
`KeyError` when `body` is absent, `IndexError` when it is empty,
`KeyError` when the first record has no `board`. -/
def checkBoard (data : RespData) : Except PyErr Unit :=
  match data.body with
  | none => .error PyErr.keyError
  | some [] => .error PyErr.indexError
  | some (none :: _) => .error PyErr.keyError
  | some (some _ :: _) => .ok ()

/-- Model of `Puzzle.get_puzzle_date(data, return_date_str=True)`
(source lines 108-118): the `KeyError` on a missing `publicationDate`
is re-raised as `MissingPuzzleData`; otherwise the date string is
normalized and returned. -/
def get_puzzle_date_norm (data : RespData) : Except PyErr (List Char) :=
  match data.publicationDate with
  | none => .error PyErr.missingPuzzleData
  | some s =>
    match normalize_date_str s with
    | none => .error PyErr.valueError
    | some ns => .ok ns

/-- Model of `Puzzle.get_puzzle_date(data)` (default
`return_date_str=False`): the normalized string is parsed with
`parse_dt_str`. -/
def get_puzzle_date (data : RespData) : Except PyErr YMD :=
  match get_puzzle_date_norm data with
  | .error e => .error e
  | .ok ns =>
    match parse_dt_str ns with
    | none => .error PyErr.valueError
    | some ymd => .ok ymd

/-- Model of `Puzzle.get_puzzle_date_str(data, day_only)` (source lines
103-106): the zero-padded day of month when `day_only`, the full
normalized date string otherwise. -/
def get_puzzle_date_str (data : RespData) (day_only : Bool) : Except PyErr (List Char) :=
  if day_only then
    match get_puzzle_date data with
    | .error e => .error e
    | .ok ymd => .ok (fmt02 ymd.day)
  else get_puzzle_date_norm data

/-- Model of `Puzzle.get_puzzle_data_by_id` (source lines 133-141).  The
HTTP GET and JSON decoding are the oracle `net` (an `Except.error`
models a network failure); the board presence is then checked, and the
parsed publication date is extracted.  The returned first component is
the queried id, exactly as in the source. -/
def get_puzzle_data_by_id (net : Nat → Except PyErr RespData) (puzzle_id : Nat) :
    Except PyErr (Nat × YMD × RespData) :=
  match net puzzle_id with
  | .error e => .error e
  | .ok data =>
    match checkBoard data with
    | .error e => .error e
    | .ok _ =>
      match get_puzzle_date data with
      | .error e => .error e
      | .ok ymd => .ok (puzzle_id, ymd, data)

/-- Filesystem contents: path to file contents (paths and contents are
strings). -/
def FileState := List Char → Option (List Char)

/-- The `FileSystem` configuration: destination folder and the
`date_folders` flag. -/
structure FsConfig where
  destination : List Char
  date_folders : Bool

/-- Filesystem fault oracle: whether `os.makedirs` (resp. `open(..,"w")`)
raises at a given path.  `none` everywhere models a healthy filesystem. -/
structure FsEnv where
  mkdirErr : List Char → Option PyErr
  openErr : List Char → Option PyErr

/-- Model of `FileSystem.get_destination_root` (source lines 168-174).
`os.path.join` is modelled as interposing `'/'` (its behaviour for the
relative path components this program produces).  Note the source uses
`str(dt.year)` — not zero-padded — for the year directory. -/
def get_destination_root (cfg : FsConfig) (dt : YMD) : List Char :=
  if cfg.date_folders then
    cfg.destination ++ ('/' :: (natToStr dt.year ++ ('/' :: fmt02 dt.month)))
  else cfg.destination

/-- Model of `FileSystem.make_destination_folder_if_not_exists` (source
lines 176-183): any exception from `os.makedirs` is caught and
re-raised wrapped; on success the root path is returned.  `exist_ok=True`
makes the call idempotent, so a pre-existing directory is not a fault. -/
def make_destination_folder_if_not_exists (cfg : FsConfig) (env : FsEnv) (dt : YMD) :
    Except PyErr (List Char) :=
  match env.mkdirErr (get_destination_root cfg dt) with
  | some _ => .error PyErr.wrappedFsError
  | none => .ok (get_destination_root cfg dt)

/-- Deterministic serialization standing for `json.dump(data, fd,
indent=2)`: the exact text is irrelevant to every claim, only that it is
a function of the payload alone. -/
def jsonDump (data : RespData) : List Char :=
  ("pubDate=".toList) ++
    (match data.publicationDate with
     | none => ("missing".toList)
     | some s => s) ++
    (";boards=".toList) ++
    (match data.body with
     | none => ("missing".toList)
     | some bs => bs.foldl (fun acc b => acc ++ (match b with
         | none => ("x".toList)
         | some _ => ("o".toList))) [])

/-- Model of `FileSystem.write_to_disk` (source lines 185-191): ensure
the destination folder, derive the filename from the payload's
publication date, join, and write (mode `"w"`: the file at that path is
overwritten).  Returns the final path and the updated filesystem. -/
def write_to_disk (cfg : FsConfig) (env : FsEnv) (fs : FileState)
    (puzzle_id : Nat) (dt : YMD) (data : RespData) :
    Except PyErr (List Char × FileState) :=
  match make_destination_folder_if_not_exists cfg env dt with
  | .error e => .error e
  | .ok root =>
    match get_puzzle_date_str data cfg.date_folders with
    | .error e => .error e
    | .ok filename =>
      let path := root ++ ('/' :: (filename ++ (".json".toList)))
      match env.openErr path with
      | some e => .error e
      | none => .ok (path, fun p => if p = path then some (jsonDump data) else fs p)

/-- Model of `RangeDownloader.make_date_range` body when the range is
valid (source line 209): one entry per calendar day from `start_date`
to `stop_date` inclusive, in ascending order. -/
def dateList (start_date stop_date : Int) : List Int :=
  (List.range (stop_date - start_date + 1).toNat).map (fun x : Nat => start_date + (x : Int))

/-- Model of `RangeDownloader.make_date_range` (source lines 205-209):
`ValueError` when the stop date precedes the start date, otherwise the
inclusive day list. -/
def make_date_range (start_date stop_date : Int) : Except PyErr (List Int) :=
  if stop_date < start_date then .error PyErr.valueError
  else .ok (dateList start_date stop_date)

/-- The Phase-1 chunk size (source line 214). -/
def PAGE_SIZE : Int := 100

/-- The `(date_start, date_end)` argument pairs of the successive
`get_puzzle_ids_by_dates` calls issued by the Phase-1 `while` loop
(source lines 220-224): starting from `start_date`, each window runs to
`min(stop_date, current + PAGE_SIZE - 1)` and the cursor advances by
`PAGE_SIZE`. -/
def phase1Windows (start_date stop_date : Int) : List (Int × Int) :=
  if start_date ≤ stop_date then
    (start_date, min stop_date (start_date + (PAGE_SIZE - 1))) ::
      phase1Windows (start_date + PAGE_SIZE) stop_date
  else []
termination_by (stop_date + 1 - start_date).toNat
decreasing_by simp only [PAGE_SIZE] at *; omega

/-- A `PuzzleIdIndex`: date ordinal to puzzle id.  Python's `dict` is
modelled extensionally as a lookup function. -/
def emptyIds : Int → Option Nat := fun _ => none

/-- Model of `dict.update`: entries of the second dict override the
first. -/
def dictUpdate (m newm : Int → Option Nat) : Int → Option Nat :=
  fun d =>
    match newm d with
    | some v => some v
    | none => m d

/-- The Phase-1 `while` loop of `download_date_range` (source lines
220-230, pacing aside): per window, call the listing oracle and merge
the returned per-window dict into the accumulated index with
`dict.update`.  The `listing` oracle stands for
`Puzzle.get_puzzle_ids_by_dates` (source lines 92-101): the HTTP call
plus the per-record dict build, returning the window's dict keyed by
normalized date ordinal. -/
def phase1Ids (listing : Int → Int → Int → Option Nat)
    (start_date stop_date : Int) (acc : Int → Option Nat) : Int → Option Nat :=
  if start_date ≤ stop_date then
    phase1Ids listing (start_date + PAGE_SIZE) stop_date
      (dictUpdate acc (listing start_date (min stop_date (start_date + (PAGE_SIZE - 1)))))
  else acc
termination_by (stop_date + 1 - start_date).toNat
decreasing_by simp only [PAGE_SIZE] at *; omega

/-- The success line printed for each downloaded puzzle (source lines
246-248). -/
def successLine (puzzle_id : Nat) (puzzle_date : YMD) (path : List Char) : List Char :=
  ("Downloaded ".toList) ++ format_date puzzle_date ++
    (" puzzle (ID: ".toList) ++ natToStr puzzle_id ++ (") to: ".toList) ++ path

/-- Accumulated observable effects of the Phase-2 loop: fetch requests
issued, file paths written, log lines printed, filesystem contents. -/
structure P2Acc where
  fetchCalls : List Nat
  writes : List (List Char)
  logs : List (List Char)
  fs : FileState

/-- The Phase-2 `for` loop of `download_date_range` (source lines
233-256, pacing aside).  The `try` block covers exactly the index
lookup `ids[date]` (a missing key models `KeyError`) and
`get_puzzle_data_by_id`; any exception there is swallowed (`pass`) and
the loop continues.  The `else` block — `write_to_disk` and the success
print — is outside the handler, so a persist failure aborts the whole
loop and is returned as the terminal error (second component). -/
def phase2 (net : Nat → Except PyErr RespData) (cfg : FsConfig) (env : FsEnv)
    (ids : Int → Option Nat) : List Int → P2Acc → P2Acc × Option PyErr
  | [], acc => (acc, none)
  | date :: rest, acc =>
    match ids date with
    | none => phase2 net cfg env ids rest acc
    | some pid =>
      let acc1 : P2Acc := { acc with fetchCalls := acc.fetchCalls ++ [pid] }
      match get_puzzle_data_by_id net pid with
      | .error _ => phase2 net cfg env ids rest acc1
      | .ok r =>
        match write_to_disk cfg env acc1.fs r.1 r.2.1 r.2.2 with
        | .error e => (acc1, some e)
        | .ok pfs =>
          phase2 net cfg env ids rest
            { acc1 with
              writes := acc1.writes ++ [pfs.1],
              logs := acc1.logs ++ [successLine r.1 r.2.1 pfs.1],
              fs := pfs.2 }

/-- Observable outcome of one `download_date_range` run.
`summaryPrinted` records whether control reached the two summary
`print` calls after the loop (their numeric contents — wall-clock
timings — are not modelled; timing is modelled separately below). -/
structure DownloadResult where
  listingCalls : List (Int × Int)
  fetchCalls : List Nat
  writes : List (List Char)
  logs : List (List Char)
  fs : FileState
  summaryPrinted : Bool
  err : Option PyErr

/-- Model of `RangeDownloader.download_date_range` (source lines
211-266), with timing elided: Phase 1 builds the id index (the listing
calls happen before anything else, so they are recorded in both
branches), then `make_date_range` validates the range (raising
`ValueError` on an inverted range, *after* Phase 1, which on an
inverted range has made zero calls), then Phase 2 runs. -/
def downloadDateRange (listing : Int → Int → Int → Option Nat)
    (net : Nat → Except PyErr RespData) (cfg : FsConfig) (env : FsEnv)
    (fs0 : FileState) (start_date stop_date : Int) : DownloadResult :=
  let ids := phase1Ids listing start_date stop_date emptyIds
  match make_date_range start_date stop_date with
  | .error e =>
    { listingCalls := phase1Windows start_date stop_date, fetchCalls := [],
      writes := [], logs := [], fs := fs0, summaryPrinted := false, err := some e }
  | .ok dates =>
    let p := phase2 net cfg env ids dates ⟨[], [], [], fs0⟩
    { listingCalls := phase1Windows start_date stop_date,
      fetchCalls := p.1.fetchCalls, writes := p.1.writes, logs := p.1.logs,
      fs := p.1.fs, summaryPrinted := p.2.isNone, err := p.2 }

/-- Model of `time_remaining = self.secs_btwn_queries - query_elapsed`
(source lines 226 and 252). -/
def time_remaining (secs_btwn_queries query_elapsed : ℚ) : ℚ :=
  secs_btwn_queries - query_elapsed

/-- The amount slept at the end of one loop cycle (source lines 227-230
and 253-256): the remainder when positive, nothing otherwise. -/
def sleepAmount (secs_btwn_queries query_elapsed : ℚ) : ℚ :=
  if 0 < time_remaining secs_btwn_queries query_elapsed then
    time_remaining secs_btwn_queries query_elapsed
  else 0

/-- Start times (`query_st = time()`) of the successive cycles of either
rate-limited loop, given the measured elapsed work time of each cycle:
the next cycle starts after the current cycle's work plus its pacing
sleep.  Both the Phase-1 window loop and the Phase-2 per-date loop
instantiate this pattern. -/
def cycleStartTimes (secs_btwn_queries : ℚ) : ℚ → List ℚ → List ℚ
  | _, [] => []
  | t0, e :: es => t0 :: cycleStartTimes secs_btwn_queries (t0 + e + sleepAmount secs_btwn_queries e) es

/-- Statement of claim C5: splitting recombination, the sample from the
spec, and stability of already-normalized strings. -/
def c5Prop : Prop :=
  (∀ y m d : List Char, y ≠ [] → m ≠ [] → d ≠ [] →
      y.all (fun c => c.isDigit) = true →
      m.all (fun c => c.isDigit) = true →
      d.all (fun c => c.isDigit) = true →
      normalize_date_str (y ++ ('-' :: (m ++ ('-' :: d)))) =
        some (fmt04 (digitsVal y) ++
          ('-' :: (fmt02 (digitsVal m) ++ ('-' :: fmt02 (digitsVal d)))))) ∧
  normalize_date_str (("1993-12-4").toList) = some (("1993-12-04").toList) ∧
  (∀ yn mn dn : Nat,
      normalize_date_str (fmt04 yn ++ ('-' :: (fmt02 mn ++ ('-' :: fmt02 dn)))) =
        some (fmt04 yn ++ ('-' :: (fmt02 mn ++ ('-' :: fmt02 dn)))))

/-- Statement of claim C9: the valid-range behaviour of
`make_date_range`. -/
def c9Prop (start_date stop_date : Int) : Prop :=
  make_date_range start_date stop_date = .ok (dateList start_date stop_date) ∧
  (∀ d : Int, d ∈ dateList start_date stop_date ↔ start_date ≤ d ∧ d ≤ stop_date) ∧
  List.Chain' (fun a b => b = a + 1) (dateList start_date stop_date) ∧
  (dateList start_date stop_date).length = (stop_date - start_date + 1).toNat ∧
  (start_date = stop_date → dateList start_date stop_date = [start_date])

/-- Statement of claim C3: start-time gaps of consecutive cycles of a
rate-limited loop are at least the configured interval, and the sleep is
exactly the remainder when the cycle ran short, nothing otherwise. -/
def c3Prop (secs_btwn_queries t0 : ℚ) (elapsed : List ℚ) : Prop :=
  List.Chain' (fun a b => secs_btwn_queries ≤ b - a)
    (cycleStartTimes secs_btwn_queries t0 elapsed) ∧
  (∀ e : ℚ, sleepAmount secs_btwn_queries e =
    if e < secs_btwn_queries then secs_btwn_queries - e else 0)

/-- Statement of claim C2: the Phase-1 windows begin at the start date,
are nonempty spans of at most 100 days, abut each other (each begins the
day after the previous one ends), end at the stop date, cover exactly
the inclusive range, and the produced index is the left fold of
`dict.update` over the per-window results. -/
def c2Prop (start_date stop_date : Int) : Prop :=
  ((phase1Windows start_date stop_date).head?.map Prod.fst = some start_date) ∧
  ((phase1Windows start_date stop_date).getLast?.map Prod.snd = some stop_date) ∧
  (∀ w ∈ phase1Windows start_date stop_date, w.1 ≤ w.2 ∧ w.2 - w.1 + 1 ≤ 100) ∧
  List.Chain' (fun w1 w2 => w2.1 = w1.2 + 1) (phase1Windows start_date stop_date) ∧
  (∀ d : Int, (∃ w ∈ phase1Windows start_date stop_date, w.1 ≤ d ∧ d ≤ w.2) ↔
    (start_date ≤ d ∧ d ≤ stop_date)) ∧
  (∀ (listing : Int → Int → Int → Option Nat) (acc : Int → Option Nat),
    phase1Ids listing start_date stop_date acc =
      (phase1Windows start_date stop_date).foldl
        (fun m w => dictUpdate m (listing w.1 w.2)) acc)

/-- The per-date outcome of the Phase-2 lookup-and-fetch attempt: `none`
when the index has no id for the date or the fetch fails (the swallowed
cases), the fetched triple otherwise. -/
def successEntry (net : Nat → Except PyErr RespData) (ids : Int → Option Nat) (d : Int) :
    Option (Nat × YMD × RespData) :=
  match ids d with
  | none => none
  | some pid =>
    match get_puzzle_data_by_id net pid with
    | .error _ => none
    | .ok r => some r

/-- The path `write_to_disk` would write a fetched payload to (it
depends only on the configuration, the puzzle date and the payload). -/
def successPath (cfg : FsConfig) (dt : YMD) (data : RespData) : Option (List Char) :=
  match get_puzzle_date_str data cfg.date_folders with
  | .error _ => none
  | .ok fn => some (get_destination_root cfg dt ++ ('/' :: (fn ++ (".json".toList))))

/-- Statement of claim C1: on a valid range with a healthy filesystem,
the run finishes (no crash, summary reached), issues one fetch per
indexed date, and writes exactly one file and prints exactly one
success line per date whose fetch succeeds — nothing for the dates
whose lookup or fetch fails. -/
def c1Prop (listing : Int → Int → Int → Option Nat) (net : Nat → Except PyErr RespData)
    (cfg : FsConfig) (env : FsEnv) (fs0 : FileState) (start_date stop_date : Int) : Prop :=
  let ids := phase1Ids listing start_date stop_date emptyIds
  let dates := dateList start_date stop_date
  let r := downloadDateRange listing net cfg env fs0 start_date stop_date
  r.err = none ∧
  r.summaryPrinted = true ∧
  r.fetchCalls = dates.filterMap ids ∧
  r.writes = dates.filterMap
    (fun d => (successEntry net ids d).bind (fun x => successPath cfg x.2.1 x.2.2)) ∧
  r.logs = dates.filterMap
    (fun d => (successEntry net ids d).bind
      (fun x => (successPath cfg x.2.1 x.2.2).map (fun p => successLine x.1 x.2.1 p)))

/-- Statement of claim C4: an inverted range fails with the
`make_date_range` `ValueError` and the run performs no listing call, no
fetch, no write, no log, and leaves the filesystem untouched. -/
def c4Prop (listing : Int → Int → Int → Option Nat) (net : Nat → Except PyErr RespData)
    (cfg : FsConfig) (env : FsEnv) (fs0 : FileState) (start_date stop_date : Int) : Prop :=
  let r := downloadDateRange listing net cfg env fs0 start_date stop_date
  make_date_range start_date stop_date = .error PyErr.valueError ∧
  r.err = some PyErr.valueError ∧
  r.listingCalls = [] ∧
  r.fetchCalls = [] ∧
  r.writes = [] ∧
  r.logs = [] ∧
  r.summaryPrinted = false ∧
  (∀ p, r.fs p = fs0 p)

/-- Statement of claim C6: with puzzle date 2024-03-07, the
date-partitioned layout writes `<dest>/2024/03/07.json` and the flat
layout writes `<dest>/2024-03-07.json`; in both cases `.json` is
appended, the path is returned, and the payload is stored there. -/
def c6Prop (dest : List Char) (env : FsEnv) (fs : FileState)
    (puzzle_id : Nat) (data : RespData) : Prop :=
  (∃ fs1, write_to_disk ⟨dest, true⟩ env fs puzzle_id ⟨2024, 3, 7⟩ data =
      .ok (dest ++ (("/2024/03/07.json").toList), fs1) ∧
    fs1 (dest ++ (("/2024/03/07.json").toList)) = some (jsonDump data)) ∧
  (∃ fs2, write_to_disk ⟨dest, false⟩ env fs puzzle_id ⟨2024, 3, 7⟩ data =
      .ok (dest ++ (("/2024-03-07.json").toList), fs2) ∧
    fs2 (dest ++ (("/2024-03-07.json").toList)) = some (jsonDump data))

/-- Statement of claim C7: writing twice with the same arguments
succeeds both times, returns the same path, stores the same content,
and the second write leaves the filesystem exactly as the first did
(overwrite, not append or error). -/
def c7Prop (cfg : FsConfig) (env : FsEnv) (fs : FileState)
    (puzzle_id : Nat) (dt : YMD) (data : RespData) (fn : List Char) : Prop :=
  let path := get_destination_root cfg dt ++ ('/' :: (fn ++ (".json".toList)))
  ∃ fs1 fs2,
    write_to_disk cfg env fs puzzle_id dt data = .ok (path, fs1) ∧
    write_to_disk cfg env fs1 puzzle_id dt data = .ok (path, fs2) ∧
    fs1 path = some (jsonDump data) ∧
    fs2 path = some (jsonDump data) ∧
    (∀ q, fs2 q = fs1 q)

/-- Statement of the amended claim C8: the board check (which precedes
the date check) propagates its error whenever the board is absent;
`MissingPuzzleData` is raised when the board is present but
`publicationDate` is absent; on success the queried id, the parsed
normalized publication date and the raw payload are returned. -/
def c8Prop (net : Nat → Except PyErr RespData) (puzzle_id : Nat) (data : RespData) : Prop :=
  net puzzle_id = .ok data →
  ((∀ e, checkBoard data = .error e → get_puzzle_data_by_id net puzzle_id = .error e) ∧
   (checkBoard data = .ok () → data.publicationDate = none →
     get_puzzle_data_by_id net puzzle_id = .error PyErr.missingPuzzleData) ∧
   (∀ s ns ymd, checkBoard data = .ok () → data.publicationDate = some s →
     normalize_date_str s = some ns → parse_dt_str ns = some ymd →
     get_puzzle_data_by_id net puzzle_id = .ok (puzzle_id, ymd, data)))

/-- Statement of claim C10: when a date's fetch succeeds but its persist
step fails, the error escapes the per-date handler: the run ends with
that error, no summary is printed, the failing date's fetch is the last
request issued, and no further write or log happens. -/
def c10Prop (listing : Int → Int → Int → Option Nat) (net : Nat → Except PyErr RespData)
    (cfg : FsConfig) (env : FsEnv) (fs0 : FileState) (start_date stop_date : Int)
    (pid : Nat) (e : PyErr) (acc1 : P2Acc) : Prop :=
  let r := downloadDateRange listing net cfg env fs0 start_date stop_date
  r.err = some e ∧
  r.summaryPrinted = false ∧
  r.fetchCalls = acc1.fetchCalls ++ [pid] ∧
  r.writes = acc1.writes ∧
  r.logs = acc1.logs

/-- A well-formed sample payload (publication date 2024-03-07, board
present), used by concrete witnesses. -/
def wData : RespData := ⟨some (("2024-03-07").toList), some [some ()]⟩

/-- A network oracle that always returns `wData`. -/
def wNet : Nat → Except PyErr RespData := fun _ => .ok wData

/-- A listing oracle whose window dicts know only day 0, with id 7. -/
def wListing : Int → Int → Int → Option Nat :=
  fun _ _ d => if d = 0 then some 7 else none

/-- Flat-layout configuration for witnesses. -/
def wCfgFlat : FsConfig := ⟨("out").toList, false⟩

/-- A healthy filesystem oracle. -/
def wEnvOk : FsEnv := ⟨fun _ => none, fun _ => none⟩

/-- A filesystem oracle whose directory creation always fails. -/
def wEnvBadDir : FsEnv := ⟨fun _ => some PyErr.fsError, fun _ => none⟩

/-- The empty filesystem. -/
def wFs0 : FileState := fun _ => none

theorem splitOnChar_ne_nil (sep : Char) (l : List Char) : splitOnChar sep l ≠ [] := by
  cases l with
  | nil => simp [splitOnChar]
  | cons c cs =>
    simp only [splitOnChar]
    cases splitOnChar sep cs with
    | nil => simp
    | cons s ss =>
      by_cases h : c = sep <;> simp [h]

theorem split_of_no_sep (sep : Char) (l : List Char) (h : ∀ c ∈ l, c ≠ sep) :
    splitOnChar sep l = [l] := by
  induction l with
  | nil => rfl
  | cons c cs ih =>
    have hc : c ≠ sep := h c (List.mem_cons_self c cs)
    have ih' := ih (fun x hx => h x (List.mem_cons_of_mem c hx))
    simp only [splitOnChar, ih', hc, if_false]

theorem split_append_sep (sep : Char) (a b : List Char) (h : ∀ c ∈ a, c ≠ sep) :
    splitOnChar sep (a ++ (sep :: b)) = a :: splitOnChar sep b := by
  induction a with
  | nil =>
    simp only [List.nil_append, splitOnChar]
    cases hb : splitOnChar sep b with
    | nil => exact absurd hb (splitOnChar_ne_nil sep b)
    | cons s ss => simp
  | cons c cs ih =>
    have hc : c ≠ sep := h c (List.mem_cons_self c cs)
    have ih' := ih (fun x hx => h x (List.mem_cons_of_mem c hx))
    simp only [List.cons_append, splitOnChar, List.append_eq, ih', hc, if_false]

theorem ne_dash_of_isDigit (c : Char) (h : c.isDigit = true) : c ≠ '-' := by
  intro hc
  rw [hc] at h
  exact absurd h (by decide)

theorem digitChar_isDigit (d : Nat) (h : d < 10) : (digitChar d).isDigit = true := by
  interval_cases d <;> decide

theorem digitChar_toNat (d : Nat) (h : d < 10) : (digitChar d).toNat = 48 + d := by
  interval_cases d <;> decide

theorem digitsVal_append_singleton (l : List Char) (c : Char) :
    digitsVal (l ++ [c]) = 10 * digitsVal l + (c.toNat - 48) := by
  simp [digitsVal, List.foldl_append]

theorem natToDecAux_val : ∀ fuel n, n ≤ fuel → digitsVal (natToDecAux fuel n) = n := by
  intro fuel
  induction fuel with
  | zero =>
    intro n h
    have : n = 0 := Nat.le_zero.mp h
    subst this
    rfl
  | succ f ih =>
    intro n h
    match n with
    | 0 => rfl
    | n + 1 =>
      have hdiv : (n + 1) / 10 ≤ f := by omega
      show digitsVal (natToDecAux f ((n + 1) / 10) ++ [digitChar ((n + 1) % 10)]) = n + 1
      rw [digitsVal_append_singleton, ih _ hdiv,
        digitChar_toNat _ (Nat.mod_lt _ (by norm_num))]
      omega

theorem natToDecAux_all_digits :
    ∀ fuel n, n ≤ fuel → (natToDecAux fuel n).all (fun c => c.isDigit) = true := by
  intro fuel
  induction fuel with
  | zero =>
    intro n h
    have : n = 0 := Nat.le_zero.mp h
    subst this
    rfl
  | succ f ih =>
    intro n h
    match n with
    | 0 => rfl
    | n + 1 =>
      have hdiv : (n + 1) / 10 ≤ f := by omega
      show (natToDecAux f ((n + 1) / 10) ++ [digitChar ((n + 1) % 10)]).all _ = true
      rw [List.all_append]
      simp [ih _ hdiv, digitChar_isDigit _ (Nat.mod_lt _ (by norm_num))]

theorem natToDecAux_len :
    ∀ fuel n k, n ≤ fuel → n < 10 ^ k → (natToDecAux fuel n).length ≤ k := by
  intro fuel
  induction fuel with
  | zero =>
    intro n k h _
    have : n = 0 := Nat.le_zero.mp h
    subst this
    simp [natToDecAux]
  | succ f ih =>
    intro n k h hk
    match n with
    | 0 => simp [natToDecAux]
    | n + 1 =>
      have hdiv : (n + 1) / 10 ≤ f := by omega
      match k with
      | 0 => omega
      | k + 1 =>
        have hk' : (n + 1) / 10 < 10 ^ k := by
          have h10 : (10 : Nat) ^ (k + 1) = 10 * 10 ^ k := by ring
          rw [h10] at hk
          exact Nat.div_lt_of_lt_mul hk
        show (natToDecAux f ((n + 1) / 10) ++ [digitChar ((n + 1) % 10)]).length ≤ k + 1
        rw [List.length_append]
        have := ih _ k hdiv hk'
        simp only [List.length_cons, List.length_nil]
        omega

theorem digitsVal_replicate_zero_append (k : Nat) (l : List Char) :
    digitsVal (List.replicate k '0' ++ l) = digitsVal l := by
  have aux : ∀ j, List.foldl (fun a c => 10 * a + (c.toNat - 48)) 0 (List.replicate j '0') = 0 := by
    intro j
    induction j with
    | zero => rfl
    | succ j ihj => simpa [List.replicate_succ] using ihj
  simp [digitsVal, List.foldl_append, aux]

theorem digitsVal_padZeros (w : Nat) (l : List Char) :
    digitsVal (padZeros w l) = digitsVal l :=
  digitsVal_replicate_zero_append _ _

theorem padZeros_all_digits (w : Nat) (l : List Char)
    (h : l.all (fun c => c.isDigit) = true) :
    (padZeros w l).all (fun c => c.isDigit) = true := by
  simp only [padZeros, List.all_append]
  have : (List.replicate (w - l.length) '0').all (fun c => c.isDigit) = true := by
    simp [List.all_eq_true]
  simp [this, h]

theorem padZeros_ne_nil (w : Nat) (l : List Char) (h : 0 < w) : padZeros w l ≠ [] := by
  cases l with
  | nil =>
    simp [padZeros, List.replicate_eq_nil]
    omega
  | cons c cs => simp [padZeros]

theorem padZeros_len (w : Nat) (l : List Char) (h : l.length ≤ w) :
    (padZeros w l).length = w := by
  simp [padZeros]
  omega

theorem fmt04_val (n : Nat) : digitsVal (fmt04 n) = n := by
  rw [fmt04, digitsVal_padZeros, natToDec, natToDecAux_val n n le_rfl]

theorem fmt02_val (n : Nat) : digitsVal (fmt02 n) = n := by
  rw [fmt02, digitsVal_padZeros, natToDec, natToDecAux_val n n le_rfl]

theorem fmt04_all_digits (n : Nat) : (fmt04 n).all (fun c => c.isDigit) = true :=
  padZeros_all_digits _ _ (natToDecAux_all_digits n n le_rfl)

theorem fmt02_all_digits (n : Nat) : (fmt02 n).all (fun c => c.isDigit) = true :=
  padZeros_all_digits _ _ (natToDecAux_all_digits n n le_rfl)

theorem fmt04_ne_nil (n : Nat) : fmt04 n ≠ [] := padZeros_ne_nil _ _ (by norm_num)

theorem fmt02_ne_nil (n : Nat) : fmt02 n ≠ [] := padZeros_ne_nil _ _ (by norm_num)

theorem parseInt?_digits (l : List Char) (h1 : l ≠ [])
    (h2 : l.all (fun c => c.isDigit) = true) : parseInt? l = some (digitsVal l) := by
  rw [parseInt?, if_pos ⟨h1, h2⟩]

theorem no_dash_of_all_digits (l : List Char)
    (h : l.all (fun c => c.isDigit) = true) : ∀ c ∈ l, c ≠ '-' := by
  intro c hc
  exact ne_dash_of_isDigit c (List.all_eq_true.mp h c hc)

/-- Claim C5: for every date string of the form `y-m-d` whose three
`-`-separated components parse as integers, `normalize_date_str`
returns the zero-padded `YYYY-MM-DD` string (year to 4 digits, month and
day to 2); in particular `"1993-12-4"` normalizes to `"1993-12-04"`,
and strings already in zero-padded form come back unchanged. -/
theorem c5_normalize_zero_pads : c5Prop := by
  have gen : ∀ y m d : List Char, y ≠ [] → m ≠ [] → d ≠ [] →
      y.all (fun c => c.isDigit) = true →
      m.all (fun c => c.isDigit) = true →
      d.all (fun c => c.isDigit) = true →
      normalize_date_str (y ++ ('-' :: (m ++ ('-' :: d)))) =
        some (fmt04 (digitsVal y) ++
          ('-' :: (fmt02 (digitsVal m) ++ ('-' :: fmt02 (digitsVal d))))) := by
    intro y m d hy hm hd hdy hdm hdd
    have hsplit : splitOnChar '-' (y ++ ('-' :: (m ++ ('-' :: d)))) = [y, m, d] := by
      rw [split_append_sep '-' y _ (no_dash_of_all_digits y hdy),
        split_append_sep '-' m _ (no_dash_of_all_digits m hdm),
        split_of_no_sep '-' d (no_dash_of_all_digits d hdd)]
    rw [normalize_date_str, hsplit]
    simp [parseInt?_digits y hy hdy, parseInt?_digits m hm hdm, parseInt?_digits d hd hdd]
  refine ⟨gen, by decide, ?_⟩
  intro yn mn dn
  have h := gen (fmt04 yn) (fmt02 mn) (fmt02 dn)
    (fmt04_ne_nil yn) (fmt02_ne_nil mn) (fmt02_ne_nil dn)
    (fmt04_all_digits yn) (fmt02_all_digits mn) (fmt02_all_digits dn)
  rw [h, fmt04_val, fmt02_val, fmt02_val]

/-- Claim C9: for `start ≤ stop`, `make_date_range` returns exactly the
calendar days from `start` to `stop` inclusive, one entry per day in
ascending order (consecutive successors); for `start = stop` it returns
exactly one date. -/
theorem c9_make_date_range (start_date stop_date : Int) (h : start_date ≤ stop_date) :
    c9Prop start_date stop_date := by
  refine ⟨?_, ?_, ?_, ?_, ?_⟩
  · rw [make_date_range, if_neg (not_lt.mpr h)]
  · intro d
    constructor
    · intro hd
      rcases List.mem_map.mp hd with ⟨x, hx, rfl⟩
      have hx' := List.mem_range.mp hx
      omega
    · rintro ⟨h1, h2⟩
      exact List.mem_map.mpr ⟨(d - start_date).toNat, List.mem_range.mpr (by omega), by omega⟩
  · rw [dateList, List.chain'_map]
    generalize (stop_date - start_date + 1).toNat = n
    cases n with
    | zero => simp
    | succ k =>
      rw [List.chain'_range_succ]
      intro m _
      push_cast
      ring
  · rw [dateList, List.length_map, List.length_range]
  · intro heq
    subst heq
    rw [dateList]
    have h1 : (start_date - start_date + 1).toNat = 1 := by omega
    rw [h1]
    simp [List.range_succ]

theorem c9_make_date_range_witness : (3 : Int) ≤ 3 ∧ c9Prop 3 3 :=
  ⟨by decide, c9_make_date_range 3 3 (by decide)⟩

/-- Claim C3: for every consecutive pair of cycles of the same
rate-limited loop (each outbound request starts its cycle), the gap
between their start times is at least `secs_btwn_queries`; the
orchestrator sleeps exactly the positive remainder of the interval and
nothing otherwise. -/
theorem c3_pacing (secs_btwn_queries t0 : ℚ) (elapsed : List ℚ) :
    c3Prop secs_btwn_queries t0 elapsed := by
  constructor
  · induction elapsed generalizing t0 with
    | nil => simp [cycleStartTimes]
    | cons e es ih =>
      show List.Chain' _
        (t0 :: cycleStartTimes secs_btwn_queries
          (t0 + e + sleepAmount secs_btwn_queries e) es)
      refine List.chain'_cons'.mpr ⟨?_, ih _⟩
      intro b hb
      cases es with
      | nil => simp [cycleStartTimes] at hb
      | cons e2 es2 =>
        have hb' : t0 + e + sleepAmount secs_btwn_queries e = b := by
          simpa [cycleStartTimes] using hb
        subst hb'
        rw [sleepAmount, time_remaining]
        split_ifs with hpos
        · linarith
        · linarith
  · intro e
    rw [sleepAmount, time_remaining]
    by_cases h : e < secs_btwn_queries
    · rw [if_pos (sub_pos.mpr h), if_pos h]
    · rw [if_neg (by simpa [sub_pos] using h), if_neg h]

theorem c5_normalize_zero_pads_witness :
    ((("1993").toList ≠ [] ∧ (("1993").toList).all (fun c => c.isDigit) = true) ∧
      normalize_date_str (("1993").toList ++ ('-' :: (("12").toList ++ ('-' :: ("4").toList)))) =
        some (fmt04 (digitsVal (("1993").toList)) ++
          ('-' :: (fmt02 (digitsVal (("12").toList)) ++
            ('-' :: fmt02 (digitsVal (("4").toList))))))) ∧
    normalize_date_str (fmt04 1993 ++ ('-' :: (fmt02 12 ++ ('-' :: fmt02 4)))) =
      some (fmt04 1993 ++ ('-' :: (fmt02 12 ++ ('-' :: fmt02 4)))) :=
  ⟨⟨⟨by decide, by decide⟩,
    c5_normalize_zero_pads.1 _ _ _ (by decide) (by decide) (by decide)
      (by decide) (by decide) (by decide)⟩,
    c5_normalize_zero_pads.2.2 1993 12 4⟩

theorem phase1_rec (P : Int → Int → Prop)
    (base : ∀ s t : Int, ¬ s ≤ t → P s t)
    (step : ∀ s t : Int, s ≤ t → P (s + 100) t → P s t) :
    ∀ s t : Int, P s t := by
  have key : ∀ n : Nat, ∀ s t : Int, (t + 1 - s).toNat ≤ n → P s t := by
    intro n
    induction n with
    | zero =>
      intro s t hn
      apply base
      omega
    | succ n ih =>
      intro s t hn
      by_cases hle : s ≤ t
      · exact step s t hle (ih _ _ (by omega))
      · exact base s t hle
  intro s t
  exact key (t + 1 - s).toNat s t le_rfl

theorem phase1Windows_neg (s t : Int) (h : ¬ s ≤ t) : phase1Windows s t = [] := by
  rw [phase1Windows]
  simp [h]

theorem phase1Windows_pos (s t : Int) (h : s ≤ t) :
    phase1Windows s t = (s, min t (s + 99)) :: phase1Windows (s + 100) t := by
  rw [phase1Windows]
  simp only [PAGE_SIZE, if_pos h]
  norm_num

theorem phase1Ids_neg (listing : Int → Int → Int → Option Nat) (s t : Int)
    (acc : Int → Option Nat) (h : ¬ s ≤ t) : phase1Ids listing s t acc = acc := by
  rw [phase1Ids]
  simp [h]

theorem phase1Ids_pos (listing : Int → Int → Int → Option Nat) (s t : Int)
    (acc : Int → Option Nat) (h : s ≤ t) :
    phase1Ids listing s t acc =
      phase1Ids listing (s + 100) t (dictUpdate acc (listing s (min t (s + 99)))) := by
  rw [phase1Ids]
  simp only [PAGE_SIZE, if_pos h]
  norm_num

theorem phase1Windows_head (s t : Int) (h : s ≤ t) :
    (phase1Windows s t).head?.map Prod.fst = some s := by
  rw [phase1Windows_pos s t h]
  rfl

theorem phase1Windows_last :
    ∀ s t : Int, s ≤ t → (phase1Windows s t).getLast?.map Prod.snd = some t := by
  apply phase1_rec (fun s t => s ≤ t → (phase1Windows s t).getLast?.map Prod.snd = some t)
  · intro s t hne hle
    exact absurd hle hne
  · intro s t hle ih _
    rw [phase1Windows_pos s t hle]
    by_cases h2 : s + 100 ≤ t
    · have hrec := ih h2
      rw [phase1Windows_pos (s + 100) t h2] at hrec ⊢
      rw [List.getLast?_cons_cons]
      exact hrec
    · rw [phase1Windows_neg (s + 100) t h2]
      have hmin : min t (s + 99) = t := by omega
      simp [hmin]

theorem phase1Windows_bounds :
    ∀ s t : Int, ∀ w ∈ phase1Windows s t, w.1 ≤ w.2 ∧ w.2 - w.1 + 1 ≤ 100 := by
  apply phase1_rec (fun s t => ∀ w ∈ phase1Windows s t, w.1 ≤ w.2 ∧ w.2 - w.1 + 1 ≤ 100)
  · intro s t h w hw
    rw [phase1Windows_neg s t h] at hw
    cases hw
  · intro s t hle ih w hw
    rw [phase1Windows_pos s t hle] at hw
    rcases List.mem_cons.mp hw with rfl | hw'
    · constructor
      · simp
        omega
      · simp
        omega
    · exact ih w hw'

theorem phase1Windows_chain :
    ∀ s t : Int, List.Chain' (fun w1 w2 => w2.1 = w1.2 + 1) (phase1Windows s t) := by
  apply phase1_rec (fun s t => List.Chain' (fun w1 w2 => w2.1 = w1.2 + 1) (phase1Windows s t))
  · intro s t h
    rw [phase1Windows_neg s t h]
    exact List.chain'_nil
  · intro s t hle ih
    rw [phase1Windows_pos s t hle]
    refine List.chain'_cons'.mpr ⟨?_, ih⟩
    intro w2 hw2
    by_cases h2 : s + 100 ≤ t
    · rw [phase1Windows_pos (s + 100) t h2] at hw2
      simp at hw2
      subst hw2
      simp
      omega
    · rw [phase1Windows_neg (s + 100) t h2] at hw2
      simp at hw2

theorem phase1Windows_cover :
    ∀ s t : Int, ∀ d : Int,
      (∃ w ∈ phase1Windows s t, w.1 ≤ d ∧ d ≤ w.2) ↔ (s ≤ d ∧ d ≤ t) := by
  apply phase1_rec
    (fun s t => ∀ d : Int, (∃ w ∈ phase1Windows s t, w.1 ≤ d ∧ d ≤ w.2) ↔ (s ≤ d ∧ d ≤ t))
  · intro s t h d
    rw [phase1Windows_neg s t h]
    simp
    omega
  · intro s t hle ih d
    rw [phase1Windows_pos s t hle]
    constructor
    · rintro ⟨w, hw, hd1, hd2⟩
      rcases List.mem_cons.mp hw with rfl | hw'
      · simp at hd1 hd2
        omega
      · have := (ih d).mp ⟨w, hw', hd1, hd2⟩
        omega
    · rintro ⟨h1, h2⟩
      by_cases hd : d ≤ min t (s + 99)
      · exact ⟨(s, min t (s + 99)), List.mem_cons_self _ _, h1, hd⟩
      · have hrange : s + 100 ≤ d ∧ d ≤ t := by omega
        rcases (ih d).mpr hrange with ⟨w, hw, hh⟩
        exact ⟨w, List.mem_cons_of_mem _ hw, hh⟩

theorem phase1Ids_foldl :
    ∀ s t : Int, ∀ (listing : Int → Int → Int → Option Nat) (acc : Int → Option Nat),
      phase1Ids listing s t acc =
        (phase1Windows s t).foldl (fun m w => dictUpdate m (listing w.1 w.2)) acc := by
  apply phase1_rec
    (fun s t => ∀ (listing : Int → Int → Int → Option Nat) (acc : Int → Option Nat),
      phase1Ids listing s t acc =
        (phase1Windows s t).foldl (fun m w => dictUpdate m (listing w.1 w.2)) acc)
  · intro s t h listing acc
    rw [phase1Ids_neg _ _ _ _ h, phase1Windows_neg s t h]
    rfl
  · intro s t hle ih listing acc
    rw [phase1Ids_pos _ _ _ _ hle, phase1Windows_pos s t hle, List.foldl_cons]
    exact ih listing _

/-- Claim C2: for `start ≤ stop`, Phase 1 issues listing calls for
consecutive, non-overlapping windows of at most 100 calendar days whose
union is exactly `[start, stop]` (first window begins at `start`, each
subsequent window begins the day after the previous one ends, the last
window ends at `stop`), and the resulting index is the merge
(`dict.update` fold) of the per-window results. -/
theorem c2_phase1_windows (start_date stop_date : Int) (h : start_date ≤ stop_date) :
    c2Prop start_date stop_date :=
  ⟨phase1Windows_head _ _ h, phase1Windows_last _ _ h, phase1Windows_bounds _ _,
    phase1Windows_chain _ _, phase1Windows_cover _ _, phase1Ids_foldl _ _⟩

theorem c2_phase1_windows_witness : (0 : Int) ≤ 250 ∧ c2Prop 0 250 :=
  ⟨by decide, c2_phase1_windows 0 250 (by decide)⟩

theorem get_ok_fst (net : Nat → Except PyErr RespData) (pid : Nat)
    (r : Nat × YMD × RespData) (h : get_puzzle_data_by_id net pid = .ok r) :
    r.1 = pid := by
  unfold get_puzzle_data_by_id at h
  cases hnet : net pid with
  | error e =>
    simp only [hnet] at h
    exact Except.noConfusion h
  | ok data =>
    simp only [hnet] at h
    cases hcb : checkBoard data with
    | error e =>
      simp only [hcb] at h
      exact Except.noConfusion h
    | ok u =>
      simp only [hcb] at h
      cases hd : get_puzzle_date data with
      | error e =>
        simp only [hd] at h
        exact Except.noConfusion h
      | ok ymd =>
        simp only [hd] at h
        injection h with h2
        rw [← h2]

theorem get_ok_date (net : Nat → Except PyErr RespData) (pid : Nat)
    (r : Nat × YMD × RespData) (h : get_puzzle_data_by_id net pid = .ok r) :
    get_puzzle_date r.2.2 = .ok r.2.1 := by
  unfold get_puzzle_data_by_id at h
  cases hnet : net pid with
  | error e =>
    simp only [hnet] at h
    exact Except.noConfusion h
  | ok data =>
    simp only [hnet] at h
    cases hcb : checkBoard data with
    | error e =>
      simp only [hcb] at h
      exact Except.noConfusion h
    | ok u =>
      simp only [hcb] at h
      cases hd : get_puzzle_date data with
      | error e =>
        simp only [hd] at h
        exact Except.noConfusion h
      | ok ymd =>
        simp only [hd] at h
        injection h with h2
        rw [← h2]
        exact hd

theorem date_ok_filename (data : RespData) (ymd : YMD) (b : Bool)
    (h : get_puzzle_date data = .ok ymd) :
    ∃ fn, get_puzzle_date_str data b = .ok fn := by
  cases b with
  | true => exact ⟨fmt02 ymd.day, by simp [get_puzzle_date_str, h]⟩
  | false =>
    unfold get_puzzle_date at h
    cases hn : get_puzzle_date_norm data with
    | error e =>
      rw [hn] at h
      simp at h
    | ok ns => exact ⟨ns, by simp [get_puzzle_date_str, hn]⟩

theorem write_ok (cfg : FsConfig) (env : FsEnv) (fs : FileState)
    (puzzle_id : Nat) (dt : YMD) (data : RespData) (fn : List Char)
    (hmk : env.mkdirErr (get_destination_root cfg dt) = none)
    (hfn : get_puzzle_date_str data cfg.date_folders = .ok fn)
    (hop : env.openErr (get_destination_root cfg dt ++ ('/' :: (fn ++ (".json".toList)))) = none) :
    write_to_disk cfg env fs puzzle_id dt data =
      .ok (get_destination_root cfg dt ++ ('/' :: (fn ++ (".json".toList))),
        fun p => if p = get_destination_root cfg dt ++ ('/' :: (fn ++ (".json".toList)))
          then some (jsonDump data) else fs p) := by
  unfold write_to_disk make_destination_folder_if_not_exists
  simp only [hmk, hfn, hop]

theorem successPath_of_filename (cfg : FsConfig) (dt : YMD) (data : RespData) (fn : List Char)
    (hfn : get_puzzle_date_str data cfg.date_folders = .ok fn) :
    successPath cfg dt data =
      some (get_destination_root cfg dt ++ ('/' :: (fn ++ (".json".toList)))) := by
  simp [successPath, hfn]

/-- Claim C4 (amended none): an inverted range raises the
`make_date_range` `ValueError` after a Phase-1 loop that made zero
listing calls; nothing is fetched, written, or logged. -/
theorem c4_invalid_range (listing : Int → Int → Int → Option Nat)
    (net : Nat → Except PyErr RespData) (cfg : FsConfig) (env : FsEnv)
    (fs0 : FileState) (start_date stop_date : Int) (h : stop_date < start_date) :
    c4Prop listing net cfg env fs0 start_date stop_date := by
  have hmk : make_date_range start_date stop_date = .error PyErr.valueError := by
    rw [make_date_range, if_pos h]
  have hw : phase1Windows start_date stop_date = [] := phase1Windows_neg _ _ (by omega)
  refine ⟨hmk, ?_, ?_, ?_, ?_, ?_, ?_, ?_⟩ <;>
    simp [downloadDateRange, hmk, hw]

theorem c4_invalid_range_witness :
    (3 : Int) < 5 ∧ c4Prop wListing wNet wCfgFlat wEnvOk wFs0 5 3 :=
  ⟨by decide, c4_invalid_range wListing wNet wCfgFlat wEnvOk wFs0 5 3 (by decide)⟩

/-- Counterexample to claim C8 as stated: a response body missing both
the board and the publication date.  The board access `data["body"]`
raises `KeyError` first, so the call does not raise
`MissingPuzzleData` even though `publicationDate` is absent. -/
theorem c8_counterexample :
    (RespData.mk none none).publicationDate = none ∧
    get_puzzle_data_by_id (fun _ => .ok (RespData.mk none none)) 1 = .error PyErr.keyError ∧
    (Except.error PyErr.keyError : Except PyErr (Nat × YMD × RespData)) ≠
      .error PyErr.missingPuzzleData := by
  refine ⟨rfl, rfl, ?_⟩
  decide

/-- Amended claim C8: for every fetched response body, the board-field
check runs first and its error propagates whenever the board is absent;
`MissingPuzzleData` is raised when the board is present but
`publicationDate` is absent; on success the puzzle id, the parsed
normalized publication date, and the raw payload are returned. -/
theorem c8_fetch_validation (net : Nat → Except PyErr RespData)
    (puzzle_id : Nat) (data : RespData) : c8Prop net puzzle_id data := by
  intro hnet
  refine ⟨?_, ?_, ?_⟩
  · intro e he
    unfold get_puzzle_data_by_id
    rw [hnet]
    simp [he]
  · intro hb hpd
    unfold get_puzzle_data_by_id
    rw [hnet]
    simp [hb, get_puzzle_date, get_puzzle_date_norm, hpd]
  · intro s ns ymd hb hpd hns hymd
    unfold get_puzzle_data_by_id
    rw [hnet]
    simp [hb, get_puzzle_date, get_puzzle_date_norm, hpd, hns, hymd]

theorem c8_fetch_validation_witness :
    wNet 7 = .ok wData ∧
    get_puzzle_data_by_id wNet 7 = .ok (7, ⟨2024, 3, 7⟩, wData) :=
  ⟨rfl, (c8_fetch_validation wNet 7 wData rfl).2.2
    (("2024-03-07").toList) (("2024-03-07").toList) ⟨2024, 3, 7⟩
    rfl rfl (by decide) (by decide)⟩

theorem phase2_nil (net : Nat → Except PyErr RespData) (cfg : FsConfig) (env : FsEnv)
    (ids : Int → Option Nat) (acc : P2Acc) :
    phase2 net cfg env ids [] acc = (acc, none) := rfl

theorem phase2_append_ok (net : Nat → Except PyErr RespData) (cfg : FsConfig) (env : FsEnv)
    (ids : Int → Option Nat) :
    ∀ (l1 l2 : List Int) (acc a : P2Acc),
      phase2 net cfg env ids l1 acc = (a, none) →
      phase2 net cfg env ids (l1 ++ l2) acc = phase2 net cfg env ids l2 a := by
  intro l1
  induction l1 with
  | nil =>
    intro l2 acc a h
    rw [phase2_nil] at h
    simp only [Prod.mk.injEq] at h
    rw [List.nil_append, h.1]
  | cons d rest ih =>
    intro l2 acc a h
    rw [List.cons_append]
    cases hid : ids d with
    | none =>
      simp only [phase2, hid] at h ⊢
      exact ih l2 acc a h
    | some pid =>
      simp only [phase2, hid] at h ⊢
      cases hget : get_puzzle_data_by_id net pid with
      | error e =>
        simp only [hget] at h ⊢
        exact ih _ _ _ h
      | ok r =>
        simp only [hget] at h ⊢
        cases hw : write_to_disk cfg env acc.fs r.1 r.2.1 r.2.2 with
        | error e =>
          simp only [hw] at h ⊢
          simp at h
        | ok pfs =>
          simp only [hw] at h ⊢
          exact ih _ _ _ h

theorem phase2_benign (net : Nat → Except PyErr RespData) (cfg : FsConfig) (env : FsEnv)
    (ids : Int → Option Nat)
    (hmk : ∀ p, env.mkdirErr p = none) (hop : ∀ p, env.openErr p = none) :
    ∀ (dates : List Int) (acc : P2Acc),
      (phase2 net cfg env ids dates acc).2 = none ∧
      (phase2 net cfg env ids dates acc).1.fetchCalls =
        acc.fetchCalls ++ dates.filterMap ids ∧
      (phase2 net cfg env ids dates acc).1.writes =
        acc.writes ++ dates.filterMap
          (fun d => (successEntry net ids d).bind (fun x => successPath cfg x.2.1 x.2.2)) ∧
      (phase2 net cfg env ids dates acc).1.logs =
        acc.logs ++ dates.filterMap
          (fun d => (successEntry net ids d).bind
            (fun x => (successPath cfg x.2.1 x.2.2).map (fun p => successLine x.1 x.2.1 p))) := by
  intro dates
  induction dates with
  | nil =>
    intro acc
    simp [phase2_nil]
  | cons d rest ih =>
    intro acc
    cases hid : ids d with
    | none =>
      have hse : successEntry net ids d = none := by simp [successEntry, hid]
      simp only [phase2, hid, List.filterMap_cons, hse, Option.none_bind]
      exact ih acc
    | some pid =>
      cases hget : get_puzzle_data_by_id net pid with
      | error err =>
        have hse : successEntry net ids d = none := by simp [successEntry, hid, hget]
        simp only [phase2, hid, hget, List.filterMap_cons, hse, Option.none_bind]
        refine ⟨(ih _).1, ?_, ?_, ?_⟩
        · rw [(ih _).2.1]
          simp
        · rw [(ih _).2.2.1]
        · rw [(ih _).2.2.2]
      | ok r =>
        have hdate := get_ok_date net pid r hget
        obtain ⟨fn, hfn⟩ := date_ok_filename r.2.2 r.2.1 cfg.date_folders hdate
        have hse : successEntry net ids d = some r := by simp [successEntry, hid, hget]
        have hsp := successPath_of_filename cfg r.2.1 r.2.2 fn hfn
        have hw := write_ok cfg env acc.fs r.1 r.2.1 r.2.2 fn (hmk _) hfn (hop _)
        simp only [phase2, hid, hget, hw, List.filterMap_cons, hse, Option.some_bind, hsp,
          Option.map_some']
        refine ⟨(ih _).1, ?_, ?_, ?_⟩
        · rw [(ih _).2.1]
          simp
        · rw [(ih _).2.2.1]
          simp
        · rw [(ih _).2.2.2]
          simp

/-- Claim C1: in Phase 2, on a valid range with a healthy filesystem,
every date whose index lookup or fetch fails is silently skipped (no
file, no crash, the loop continues), and every date whose fetch succeeds
produces exactly one file write and one success log line carrying the
normalized date, the puzzle id and the destination path. -/
theorem c1_phase2_per_date (listing : Int → Int → Int → Option Nat)
    (net : Nat → Except PyErr RespData) (cfg : FsConfig) (env : FsEnv)
    (fs0 : FileState) (start_date stop_date : Int)
    (h : start_date ≤ stop_date)
    (hmk : ∀ p, env.mkdirErr p = none) (hop : ∀ p, env.openErr p = none) :
    c1Prop listing net cfg env fs0 start_date stop_date := by
  have hdr : make_date_range start_date stop_date = .ok (dateList start_date stop_date) := by
    rw [make_date_range, if_neg (not_lt.mpr h)]
  have hb := phase2_benign net cfg env (phase1Ids listing start_date stop_date emptyIds)
    hmk hop (dateList start_date stop_date) ⟨[], [], [], fs0⟩
  rcases hb with ⟨h1, h2, h3, h4⟩
  simp only [c1Prop, downloadDateRange, hdr]
  refine ⟨h1, ?_, ?_, ?_, ?_⟩
  · rw [h1]
    rfl
  · simpa using h2
  · simpa using h3
  · simpa using h4

theorem c1_phase2_per_date_witness :
    ((0 : Int) ≤ 1 ∧ (∀ p, wEnvOk.mkdirErr p = none) ∧ (∀ p, wEnvOk.openErr p = none)) ∧
    c1Prop wListing wNet wCfgFlat wEnvOk wFs0 0 1 :=
  ⟨⟨by decide, fun _ => rfl, fun _ => rfl⟩,
    c1_phase2_per_date wListing wNet wCfgFlat wEnvOk wFs0 0 1
      (by decide) (fun _ => rfl) (fun _ => rfl)⟩

/-- Claim C10: the per-date handler covers only lookup and fetch; when a
date's fetch succeeds but its persist step fails, the error propagates
out of the loop — the run ends with that error, the remaining dates are
not processed, and the summary lines are not reached. -/
theorem c10_persist_error_aborts (listing : Int → Int → Int → Option Nat)
    (net : Nat → Except PyErr RespData) (cfg : FsConfig) (env : FsEnv)
    (fs0 : FileState) (start_date stop_date : Int)
    (pre post : List Int) (date : Int) (pid : Nat) (r : Nat × YMD × RespData)
    (e : PyErr) (acc1 : P2Acc)
    (hdates : make_date_range start_date stop_date = .ok (pre ++ (date :: post)))
    (hpre : phase2 net cfg env (phase1Ids listing start_date stop_date emptyIds)
      pre ⟨[], [], [], fs0⟩ = (acc1, none))
    (hid : phase1Ids listing start_date stop_date emptyIds date = some pid)
    (hfetch : get_puzzle_data_by_id net pid = .ok r)
    (hwrite : write_to_disk cfg env acc1.fs r.1 r.2.1 r.2.2 = .error e) :
    c10Prop listing net cfg env fs0 start_date stop_date pid e acc1 := by
  have happ := phase2_append_ok net cfg env (phase1Ids listing start_date stop_date emptyIds)
    pre (date :: post) ⟨[], [], [], fs0⟩ acc1 hpre
  have hstep : phase2 net cfg env (phase1Ids listing start_date stop_date emptyIds)
      (date :: post) acc1 =
      ({ acc1 with fetchCalls := acc1.fetchCalls ++ [pid] }, some e) := by
    simp only [phase2, hid, hfetch, hwrite]
  simp only [c10Prop, downloadDateRange, hdates, happ, hstep]
  simp

theorem c10_persist_error_aborts_witness :
    (make_date_range 0 1 = .ok (([] : List Int) ++ (0 :: [1])) ∧
      phase2 wNet wCfgFlat wEnvBadDir (phase1Ids wListing 0 1 emptyIds)
        [] ⟨[], [], [], wFs0⟩ = (⟨[], [], [], wFs0⟩, none) ∧
      phase1Ids wListing 0 1 emptyIds 0 = some 7 ∧
      get_puzzle_data_by_id wNet 7 = .ok (7, ⟨2024, 3, 7⟩, wData) ∧
      write_to_disk wCfgFlat wEnvBadDir ((⟨[], [], [], wFs0⟩ : P2Acc)).fs
        7 ⟨2024, 3, 7⟩ wData = .error PyErr.wrappedFsError) ∧
    c10Prop wListing wNet wCfgFlat wEnvBadDir wFs0 0 1 7 PyErr.wrappedFsError
      ⟨[], [], [], wFs0⟩ := by
  have hid : phase1Ids wListing 0 1 emptyIds 0 = some 7 := by
    rw [phase1Ids_pos _ _ _ _ (by decide : (0 : Int) ≤ 1),
      phase1Ids_neg _ _ _ _ (by decide : ¬ (0 : Int) + 100 ≤ 1)]
    decide
  refine ⟨⟨by decide, rfl, hid, by decide, rfl⟩, ?_⟩
  exact c10_persist_error_aborts wListing wNet wCfgFlat wEnvBadDir wFs0 0 1
    [] [1] 0 7 (7, ⟨2024, 3, 7⟩, wData) PyErr.wrappedFsError ⟨[], [], [], wFs0⟩
    (by decide) rfl hid (by decide) rfl

/-- Claim C6: for a payload whose normalized publication date is
2024-03-07 (and matching date argument), the date-partitioned layout
writes `<dest>/2024/03/07.json` (root `<base>/<year>/<padded month>`,
filename the padded day) and the flat layout writes
`<dest>/2024-03-07.json`; both append `.json` and return the final
path. -/
theorem c6_write_paths (dest : List Char) (env : FsEnv) (fs : FileState)
    (puzzle_id : Nat) (data : RespData) (s : List Char)
    (hs : data.publicationDate = some s)
    (hn : normalize_date_str s = some (("2024-03-07").toList))
    (hmk : ∀ p, env.mkdirErr p = none) (hop : ∀ p, env.openErr p = none) :
    c6Prop dest env fs puzzle_id data := by
  have h1 : get_puzzle_date_norm data = .ok (("2024-03-07").toList) := by
    simp only [get_puzzle_date_norm, hs, hn]
  have hd : get_puzzle_date data = .ok ⟨2024, 3, 7⟩ := by
    simp only [get_puzzle_date, h1]
    rfl
  have hfn1 : get_puzzle_date_str data true = .ok (fmt02 7) := by
    simp only [get_puzzle_date_str, if_true, hd]
  have hfn2 : get_puzzle_date_str data false = .ok (("2024-03-07").toList) := by
    simp [get_puzzle_date_str, h1]
  constructor
  · have hw := write_ok ⟨dest, true⟩ env fs puzzle_id ⟨2024, 3, 7⟩ data (fmt02 7)
      (hmk _) hfn1 (hop _)
    have hpath : get_destination_root ⟨dest, true⟩ ⟨2024, 3, 7⟩ ++
        ('/' :: (fmt02 7 ++ ((".json").toList))) = dest ++ (("/2024/03/07.json").toList) := by
      simp only [get_destination_root, if_true]
      rw [List.append_assoc]
      congr 1
    rw [hpath] at hw
    exact ⟨_, hw, by simp⟩
  · have hw := write_ok ⟨dest, false⟩ env fs puzzle_id ⟨2024, 3, 7⟩ data
      (("2024-03-07").toList) (hmk _) hfn2 (hop _)
    have hpath : get_destination_root ⟨dest, false⟩ ⟨2024, 3, 7⟩ ++
        ('/' :: ((("2024-03-07").toList) ++ ((".json").toList))) =
        dest ++ (("/2024-03-07.json").toList) := by
      simp only [get_destination_root, if_false]
      congr 1
    rw [hpath] at hw
    exact ⟨_, hw, by simp⟩

theorem c6_write_paths_witness :
    (wData.publicationDate = some (("2024-03-07").toList) ∧
      normalize_date_str (("2024-03-07").toList) = some (("2024-03-07").toList)) ∧
    c6Prop (("out").toList) wEnvOk wFs0 7 wData :=
  ⟨⟨rfl, by decide⟩,
    c6_write_paths (("out").toList) wEnvOk wFs0 7 wData (("2024-03-07").toList)
      rfl (by decide) (fun _ => rfl) (fun _ => rfl)⟩

/-- Claim C7: persisting is idempotent — a second `write_to_disk` with
the same arguments succeeds, targets the same path, stores the same
content, and leaves the filesystem exactly as the first write did
(overwrite, not append or error). -/
theorem c7_write_idempotent (cfg : FsConfig) (env : FsEnv) (fs : FileState)
    (puzzle_id : Nat) (dt : YMD) (data : RespData) (fn : List Char)
    (hmk : env.mkdirErr (get_destination_root cfg dt) = none)
    (hfn : get_puzzle_date_str data cfg.date_folders = .ok fn)
    (hop : env.openErr (get_destination_root cfg dt ++ ('/' :: (fn ++ (".json".toList)))) = none) :
    c7Prop cfg env fs puzzle_id dt data fn := by
  have hw1 := write_ok cfg env fs puzzle_id dt data fn hmk hfn hop
  have hw2 := write_ok cfg env
    (fun p => if p = get_destination_root cfg dt ++ ('/' :: (fn ++ (".json".toList)))
      then some (jsonDump data) else fs p) puzzle_id dt data fn hmk hfn hop
  refine ⟨_, _, hw1, hw2, ?_, ?_, ?_⟩
  · simp
  · simp
  · intro q
    by_cases hq : q = get_destination_root cfg dt ++ ('/' :: (fn ++ (".json".toList)))
    · simp [hq]
    · simp only [if_neg hq]

theorem c7_write_idempotent_witness :
    (wEnvOk.mkdirErr (get_destination_root wCfgFlat ⟨2024, 3, 7⟩) = none ∧
      get_puzzle_date_str wData wCfgFlat.date_folders = .ok (("2024-03-07").toList) ∧
      wEnvOk.openErr (get_destination_root wCfgFlat ⟨2024, 3, 7⟩ ++
        ('/' :: ((("2024-03-07").toList) ++ (".json".toList)))) = none) ∧
    c7Prop wCfgFlat wEnvOk wFs0 7 ⟨2024, 3, 7⟩ wData (("2024-03-07").toList) :=
  ⟨⟨rfl, by decide, rfl⟩,
    c7_write_idempotent wCfgFlat wEnvOk wFs0 7 ⟨2024, 3, 7⟩ wData
      (("2024-03-07").toList) rfl (by decide) rfl⟩
